import Mathlib

/-!
# Verification of the PDF report factory's query cache and formatting layer

Shallow embedding of `src/report_factory.py` (class `QueryCache`, filename
derivation in `ReportFactory.generate_report`) and `src/main.py` (numeric
parsing, column sum/max, totals-row construction), together with proofs of
the behavioural claims about them.

Modelling conventions:
* Python strings are Lean `String`s; the regex substitutions of
  `_make_base_query` are implemented as specialised matchers with the same
  leftmost / greedy semantics (each concrete pattern used by the source needs
  no backtracking, except for the optional `DISTINCT` group which is handled
  explicitly).
* Python `float` values are modelled as `ℚ`; `float(...)` on decimal strings
  becomes `parseFloat?` (the exotic inputs `inf`/`nan`/underscores accepted by
  Python are outside the data domain of this program and are not modelled).
* Database cells are `Option String` (`none` = SQL NULL); `str(cell)` is the
  identity on the payload.
* The database connection is a pure oracle `String → Except String rows`;
  a raised `hdbcli` exception is the `.error` case.
-/

namespace PdfReport

/-- Python `\s` (ASCII range, as produced by SQL text). -/
def isPySpace (c : Char) : Bool :=
  c = ' ' || c = '\t' || c = '\n' || c = '\r' || c = '\x0b' || c = '\x0c'

/-- ASCII lower-casing, modelling `str.lower` on SQL text. -/
def lowChar (c : Char) : Char := c.toLower

/-- Python `str.strip`. -/
def trimChars (s : List Char) : List Char :=
  ((s.dropWhile isPySpace).reverse.dropWhile isPySpace).reverse

/-- Python `str.strip` on `String`. -/
def strTrim (s : String) : String := String.mk (trimChars s.data)

/-- The single-quote character `'`. -/
def sq : Char := Char.ofNat 39

/-- Case-insensitive literal matcher; returns the rest of the input. -/
def matchLitCI : List Char → List Char → Option (List Char)
  | [], s => some s
  | _ :: _, [] => none
  | p :: ps, c :: cs => if lowChar c = lowChar p then matchLitCI ps cs else none

/-- Case-sensitive literal matcher; returns the rest of the input. -/
def matchLitCS : List Char → List Char → Option (List Char)
  | [], s => some s
  | _ :: _, [] => none
  | p :: ps, c :: cs => if c = p then matchLitCS ps cs else none

/-- Single-character matcher. -/
def matchChar (c : Char) : List Char → Option (List Char)
  | d :: rest => if d = c then some rest else none
  | [] => none

/-- Regex `\s*` (greedy, maximal munch). -/
def dropSpaces (s : List Char) : List Char := s.dropWhile isPySpace

/-- Regex `\s+` (greedy, maximal munch). -/
def matchSpaces1 : List Char → Option (List Char)
  | c :: cs => if isPySpace c then some (dropSpaces cs) else none
  | [] => none

/-- Regex `'[^']*'`: a quote, any non-quote run, a quote. -/
def matchQuoted : List Char → Option (List Char)
  | c :: rest =>
    if c = sq then
      match rest.dropWhile (fun d => d != sq) with
      | d :: rest2 => if d = sq then some rest2 else none
      | [] => none
    else none
  | [] => none

/-- Regex `<col>\s*=\s*'[^']*'`, case-insensitive or case-sensitive on the
column name (the detection regexes at report_factory.py:78-79 have no flags,
the substitution regexes use `re.IGNORECASE`). -/
def matchEqLit (ci : Bool) (col : List Char) (s : List Char) : Option (List Char) := do
  let s ← (if ci then matchLitCI else matchLitCS) col s
  let s := dropSpaces s
  let s ← matchChar '=' s
  let s := dropSpaces s
  matchQuoted s

/-- Regex `\s+AND\s+<col>\s*=\s*'[^']*'` (IGNORECASE). -/
def matchSpAndEq (col : List Char) (s : List Char) : Option (List Char) := do
  let s ← matchSpaces1 s
  let s ← matchLitCI "and".data s
  let s ← matchSpaces1 s
  matchEqLit true col s

/-- Regex `<col>\s*=\s*'[^']*'\s*AND\s*` (IGNORECASE). -/
def matchEqAndSp (col : List Char) (s : List Char) : Option (List Char) := do
  let s ← matchEqLit true col s
  let s := dropSpaces s
  let s ← matchLitCI "and".data s
  some (dropSpaces s)

/-- Regex `WHERE\s+1=1\s*$` (IGNORECASE), `$` = end of the (stripped) query. -/
def matchWhereTrueEnd (s : List Char) : Option (List Char) := do
  let s ← matchLitCI "where".data s
  let s ← matchSpaces1 s
  let s ← matchLitCS "1=1".data s
  let s := dropSpaces s
  if s.isEmpty then some [] else none

/-- Regex `WHERE\s+1=1\s+AND\s+` (IGNORECASE). -/
def matchWhereTrueAnd (s : List Char) : Option (List Char) := do
  let s ← matchLitCI "where".data s
  let s ← matchSpaces1 s
  let s ← matchLitCS "1=1".data s
  let s ← matchSpaces1 s
  let s ← matchLitCI "and".data s
  matchSpaces1 s

/-- `re.sub(pattern, repl, s)`: scan left to right, replace every
non-overlapping match, continue after the replaced stretch.  `fuel` bounds
the recursion; it is called with `fuel = s.length`, which suffices because
every step consumes at least one input character. -/
def subAll (m : List Char → Option (List Char)) (repl : List Char) :
    Nat → List Char → List Char
  | 0, s => s
  | _ + 1, [] => []
  | fuel + 1, c :: cs =>
    match m (c :: cs) with
    | some rest =>
      if rest.length < cs.length + 1 then repl ++ subAll m repl fuel rest
      else c :: subAll m repl fuel cs
    | none => c :: subAll m repl fuel cs

/-- `re.sub` with unlimited count. -/
def runSubAll (m : List Char → Option (List Char)) (repl : List Char)
    (s : List Char) : List Char :=
  subAll m repl s.length s

/-- `re.sub(pattern, repl, s, count=1)`: replace only the leftmost match. -/
def subFirst (m : List Char → Option (List Char)) (repl : List Char) :
    List Char → List Char
  | [] => []
  | c :: cs =>
    match m (c :: cs) with
    | some rest =>
      if rest.length < cs.length + 1 then repl ++ rest
      else c :: subFirst m repl cs
    | none => c :: subFirst m repl cs

/-- `re.search(pattern, s) is not None`. -/
def searchAny (m : List Char → Option (List Char)) : List Char → Bool
  | [] => (m []).isSome
  | c :: cs => (m (c :: cs)).isSome || searchAny m cs

/-- Python `pat in s` (substring test). -/
def isSubstr (pat : List Char) : List Char → Bool
  | [] => pat.isEmpty
  | s@(_ :: rest) => pat.isPrefixOf s || isSubstr pat rest

/-- Python `str.replace`: replace every non-overlapping occurrence of `pat`
left to right.  `fuel` bounds the recursion; called with `fuel = s.length`,
which suffices because every step consumes at least one character. -/
def replaceAllL (pat repl : List Char) : Nat → List Char → List Char
  | 0, s => s
  | _ + 1, [] => []
  | fuel + 1, s@(c :: cs) =>
    if pat.isPrefixOf s && !pat.isEmpty then
      repl ++ replaceAllL pat repl fuel (s.drop pat.length)
    else c :: replaceAllL pat repl fuel cs

/-- Python `str.replace` on `String`. -/
def strReplace (s pat repl : String) : String :=
  String.mk (replaceAllL pat.data repl.data s.data.length s.data)

/-- `re.match(r'\s*SELECT\s+DISTINCT\s+', q, re.IGNORECASE)` (anchored). -/
def hasDistinctHead (s : List Char) : Bool :=
  (do
    let s := dropSpaces s
    let s ← matchLitCI "select".data s
    let s ← matchSpaces1 s
    let s ← matchLitCI "distinct".data s
    matchSpaces1 s).isSome

/-- Does `t` start with `\s+FROM` (whitespace run, then `FROM`, both as in the
regex `(.+?)\s+FROM` with IGNORECASE)? -/
def spacesThenFrom (t : List Char) : Bool :=
  match t with
  | c :: cs => isPySpace c && (matchLitCI "from".data (dropSpaces cs)).isSome
  | [] => false

/-- The lazy group `(.+?)` of `SELECT\s+(?:DISTINCT\s+)?(.+?)\s+FROM` with
`re.DOTALL`: the shortest non-empty prefix whose remainder starts with
`\s+FROM`. -/
def lazyDotPlus : List Char → Option (List Char)
  | [] => none
  | c :: cs =>
    if spacesThenFrom cs then some [c]
    else
      match lazyDotPlus cs with
      | some g => some (c :: g)
      | none => none

/-- Attempt the projection-list pattern at the current position: consume
`SELECT\s+`, optionally `DISTINCT\s+` (preferring to take it, falling back to
the group-less alternative as the regex engine would), then capture `(.+?)`. -/
def selColsAt (s : List Char) : Option (List Char) := do
  let s1 ← matchLitCI "select".data s
  let s2 ← matchSpaces1 s1
  match (do
      let t ← matchLitCI "distinct".data s2
      let t2 ← matchSpaces1 t
      lazyDotPlus t2) with
  | some g => some g
  | none => lazyDotPlus s2

/-- `re.search(r'SELECT\s+(?:DISTINCT\s+)?(.+?)\s+FROM', q, IGNORECASE|DOTALL)`
returning group 1: try each start position left to right. -/
def findExistingCols : List Char → Option (List Char)
  | [] => none
  | s@(_ :: rest) =>
    match selColsAt s with
    | some g => some g
    | none => findExistingCols rest

/-- Python `s.split(',')` (keeps empty fields). -/
def splitOnComma : List Char → List (List Char)
  | [] => [[]]
  | c :: cs =>
    if c = ',' then [] :: splitOnComma cs
    else
      match splitOnComma cs with
      | g :: gs => (c :: g) :: gs
      | [] => [[c]]

/-- Python `list.index` (first index of an element known to be present). -/
def idxOf (a : List Char) : List (List Char) → Nat
  | [] => 0
  | b :: bs => if b = a then 0 else idxOf a bs + 1

/-! ## The query rewriter (`QueryCache._make_base_query`) -/

/-- The entity-filter column (`QueryCache.NR_UMOWY_FILTER_COL`). -/
def nrU : List Char := "nr_umowy".data

/-- The location-filter column. -/
def lokU : List Char := "nazwa_sklepu".data

/-- report_factory.py:78 — `'{nr}' in q or re.search(r"nr_umowy\s*=\s*'[^']*'", q)`
(the detection search is case-sensitive: no flags). -/
def has_nr_filter (q : List Char) : Bool :=
  isSubstr "{nr}".data q || searchAny (matchEqLit false nrU) q

/-- report_factory.py:79 — detection of the location filter. -/
def has_lok_filter (q : List Char) : Bool :=
  isSubstr "{lok}".data q || searchAny (matchEqLit false lokU) q

/-- report_factory.py:82-111 — the chain of `re.sub` calls that removes the
`nr_umowy` / `nazwa_sklepu` predicates from the WHERE clause and cleans up the
residual `WHERE 1=1`. -/
def clean_where (q : List Char) : List Char :=
  let q1 := runSubAll (matchSpAndEq nrU) [] q
  let q2 := runSubAll (matchEqAndSp nrU) [] q1
  let q3 := runSubAll (matchEqLit true nrU) "1=1".data q2
  let q4 := runSubAll (matchSpAndEq lokU) [] q3
  let q5 := runSubAll (matchEqAndSp lokU) [] q4
  let q6 := runSubAll (matchEqLit true lokU) "1=1".data q5
  let q7 := runSubAll matchWhereTrueEnd [] q6
  runSubAll matchWhereTrueAnd "WHERE ".data q7

/-- report_factory.py:117-121 — the lower-cased captured projection list
(`''` when the pattern finds nothing). -/
def existingColsOf (q_clean : List Char) : List Char :=
  ((findExistingCols q_clean).getD []).map lowChar

/-- `SELECT\s+DISTINCT\s+` (IGNORECASE), for the count=1 substitution. -/
def matchSelectDistinctSp (s : List Char) : Option (List Char) := do
  let s ← matchLitCI "select".data s
  let s ← matchSpaces1 s
  let s ← matchLitCI "distinct".data s
  matchSpaces1 s

/-- `SELECT\s+` (IGNORECASE), for the count=1 substitution. -/
def matchSelectSp (s : List Char) : Option (List Char) := do
  let s ← matchLitCI "select".data s
  matchSpaces1 s

/-- Result of `_make_base_query`: `(base_query, nr_col, lok_col, added_count)`. -/
structure Rewrite where
  baseQuery : String
  nrCol : Option Nat
  lokCol : Option Nat
  addedCount : Nat
deriving DecidableEq, Repr

/-- `QueryCache._make_base_query` (report_factory.py:62-169): rewrite a
per-contract query into the batch query, returning the filter-column indices
and the number of prepended columns. -/
def make_base_query (query : String) : Rewrite :=
  let q := trimChars query.data
  let hasNr := has_nr_filter q
  let hasLok := has_lok_filter q
  let q_clean := clean_where q
  let hasDistinct := hasDistinctHead q_clean
  let existing_cols := existingColsOf q_clean
  let extra_cols : List (List Char) :=
    (if hasNr && !isSubstr nrU existing_cols then [nrU] else []) ++
    (if hasLok && !isSubstr lokU existing_cols then [lokU] else [])
  let q_out :=
    if extra_cols.isEmpty then q_clean
    else
      let pre := List.intercalate ", ".data extra_cols ++ ", ".data
      if hasDistinct then
        subFirst matchSelectDistinctSp ("SELECT DISTINCT ".data ++ pre) q_clean
      else
        subFirst matchSelectSp ("SELECT ".data ++ pre) q_clean
  let added_count := extra_cols.length
  let nr_col : Option Nat :=
    if hasNr then
      if extra_cols.contains nrU then some (idxOf nrU extra_cols)
      else
        let cols := (splitOnComma existing_cols).map (fun c => (trimChars c).map lowChar)
        if cols.contains nrU then some (added_count + idxOf nrU cols) else none
    else none
  let lok_col : Option Nat :=
    if hasLok then
      if extra_cols.contains lokU then some (idxOf lokU extra_cols)
      else
        let cols := (splitOnComma existing_cols).map (fun c => (trimChars c).map lowChar)
        if cols.contains lokU then some (added_count + idxOf lokU cols) else none
    else none
  { baseQuery := String.mk (trimChars q_out), nrCol := nr_col,
    lokCol := lok_col, addedCount := added_count }

/-! ## The batch query cache (`QueryCache.prefetch` / `QueryCache.get`) -/

/-- A result row after string normalisation. -/
abbrev Row := List String

/-- The database oracle: `cursor.execute(q); cursor.fetchall()` either yields
rows of nullable cells or raises. -/
abbrev Db := String → Except String (List (List (Option String)))

/-- `[str(cell) if cell is not None else '' for cell in row] for row in rows`. -/
def normalizeRows (rows : List (List (Option String))) : List Row :=
  rows.map (fun r => r.map (fun c => c.getD ""))

/-- `QueryCache._cache`: template text → full normalised row set (insertion
order preserved; keys are unique). -/
abbrev Cache := List (String × List Row)

/-- Dictionary lookup `self._cache[template]` / `template in self._cache`. -/
def lookupCache (cache : Cache) (t : String) : Option (List Row) :=
  match cache with
  | [] => none
  | (k, v) :: rest => if k = t then some v else lookupCache rest t

/-- `QueryCache.prefetch` (report_factory.py:181-210), with the execution
trace made explicit.  Returns the extended cache, the trace of
`cursor.execute` events as `(template, base_query)` pairs (in order; the
second component is the SQL text actually executed), and the number of
successful executions (`_query_count` increments only after a successful
fetch).  `_get_base_query_cached` is a memoisation of the pure
`_make_base_query` and is modelled by a direct call. -/
def prefetch (db : Db) : List String → List String → Cache →
    Cache × List (String × String) × Nat
  | [], _, cache => (cache, [], 0)
  | qt :: rest, seen, cache =>
    let template := strTrim qt
    if seen.contains template || (lookupCache cache template).isSome then
      prefetch db rest seen cache
    else
      let rw := make_base_query template
      match db rw.baseQuery with
      | .ok rows =>
        let r := prefetch db rest (template :: seen) (cache ++ [(template, normalizeRows rows)])
        (r.1, (template, rw.baseQuery) :: r.2.1, r.2.2 + 1)
      | .error _ =>
        let r := prefetch db rest (template :: seen) (cache ++ [(template, [])])
        (r.1, (template, rw.baseQuery) :: r.2.1, r.2.2)

/-- Errors that `QueryCache.get` can raise. -/
inductive PyErr where
  | indexError : PyErr
  | dbError : String → PyErr
deriving DecidableEq, Repr

/-- Python `str` on an optional value (`str(None) = "None"`). -/
def strOfOpt : Option String → String
  | some s => s
  | none => "None"

/-- The query text executed on the fallback path of `get`
(report_factory.py:223-225): `{nr}` replaced by `str(nr)` and stripped, then
`{lok}` replaced when the location is truthy. -/
def resolvedFallback (query_template : String) (nr lok : Option String) : String :=
  let resolved := strTrim (strReplace query_template "{nr}" (strOfOpt nr))
  match lok with
  | some l => if l ≠ "" then strReplace resolved "{lok}" l else resolved
  | none => resolved

/-- `[r for r in all_rows if r[col] == v]`: Python list comprehension, which
raises `IndexError` on a row shorter than `col + 1`. -/
def filterRowsByCol (rows : List Row) (i : Nat) (v : String) :
    Except PyErr (List Row) :=
  match rows with
  | [] => .ok []
  | r :: rest =>
    match r[i]? with
    | none => .error .indexError
    | some c =>
      match filterRowsByCol rest i v with
      | .error e => .error e
      | .ok tail => .ok (if c = v then r :: tail else tail)

/-- One guarded in-memory filter of `get` (report_factory.py:240-246):
`if value is not None and col is not None: rows = [r for r in rows if r[col] == value]`. -/
def filterStep (rows : List Row) (v? : Option String) (i? : Option Nat) :
    Except PyErr (List Row) :=
  match v?, i? with
  | some v, some i => filterRowsByCol rows i v
  | _, _ => .ok rows

/-- `QueryCache.get` (report_factory.py:212-252): serve filtered rows from the
cache, stripping the prepended columns, or fall back to executing the resolved
template directly.  (The fallback's `_query_count` increment is a diagnostic
side effect not modelled here; `prefetch` carries the counter.) -/
def QueryCache.get (db : Db) (cache : Cache) (query_template : String)
    (nr lok : Option String) : Except PyErr (List Row) :=
  let template := strTrim query_template
  let rw := make_base_query template
  match lookupCache cache template with
  | none =>
    match db (resolvedFallback query_template nr lok) with
    | .ok rows => .ok (normalizeRows rows)
    | .error e => .error (.dbError e)
  | some all_rows =>
    match filterStep all_rows nr rw.nrCol with
    | .error e => .error e
    | .ok rows1 =>
      match filterStep rows1 lok rw.lokCol with
      | .error e => .error e
      | .ok rows2 =>
        .ok (if rw.addedCount > 0 then rows2.map (List.drop rw.addedCount) else rows2)

/-! ## Value formatting and totals (`main.py`) -/

/-- Digit run: `span isDigit`. -/
def takeDigits (s : List Char) : List Char × List Char :=
  s.span (fun c => c.isDigit)

/-- Numeric value of a digit run. -/
def digitsToNat (ds : List Char) : Nat :=
  ds.foldl (fun acc c => acc * 10 + (c.toNat - 48)) 0

/-- Unsigned decimal `D+ ('.' D*)? | '.' D+`: returns the digits read as an
integer mantissa, the number of fractional digits, and the rest of the input
(so `"20.50"` yields mantissa `2050` with `2` fractional digits). -/
def parseUnsigned? (s : List Char) : Option (Nat × Nat × List Char) :=
  let (ip, r1) := takeDigits s
  match r1 with
  | '.' :: r2 =>
    let (fp, r3) := takeDigits r2
    if ip.isEmpty && fp.isEmpty then none
    else some (digitsToNat ip * 10 ^ fp.length + digitsToNat fp, fp.length, r3)
  | _ => if ip.isEmpty then none else some (digitsToNat ip, 0, r1)

/-- Optional exponent suffix `([eE] [+-]? D+)?`, requiring full consumption;
returns the signed mantissa paired with the power-of-ten exponent of the
parsed value. -/
def parseExp? (m : Int) (fracLen : Nat) (s : List Char) : Option (Int × Int) :=
  match s with
  | [] => some (m, -(fracLen : Int))
  | c :: r1 =>
    if c = 'e' || c = 'E' then
      let (neg, r2) :=
        match r1 with
        | '+' :: t => (false, t)
        | '-' :: t => (true, t)
        | t => (false, t)
      let (ds, r3) := takeDigits r2
      if ds.isEmpty || !r3.isEmpty then none
      else
        let e : Int := if neg then -(digitsToNat ds : Int) else (digitsToNat ds : Int)
        some (m, e - (fracLen : Int))
    else none

/-- Python `float(s)` on decimal strings, split as `(mantissa, exponent)`
so that the value is `mantissa · 10 ^ exponent` (whitespace stripped, sign,
decimal point, optional exponent; `inf`/`nan`/underscores are outside this
program's data domain and are not modelled; the float is modelled by the
exact decimal it denotes). -/
def parseFloat? (s : String) : Option (Int × Int) :=
  match trimChars s.data with
  | '+' :: r => (parseUnsigned? r).bind fun p => parseExp? p.1 p.2.1 p.2.2
  | '-' :: r => (parseUnsigned? r).bind fun p => parseExp? (-(p.1 : Int)) p.2.1 p.2.2
  | r => (parseUnsigned? r).bind fun p => parseExp? p.1 p.2.1 p.2.2

/-- `float(str(value).replace(',', '.').replace(' ', ''))` (main.py:147) in
`(mantissa, exponent)` form. -/
def numericParts? (s : String) : Option (Int × Int) :=
  parseFloat? (strReplace (strReplace s "," ".") " " "")

/-- The rational value of `float(str(value).replace(',', '.').replace(' ', ''))`:
the numeric reading shared by `is_numeric`, the sum, the max and the
formatters. -/
def numericValue? (s : String) : Option ℚ :=
  (numericParts? s).map (fun p => (p.1 : ℚ) * (10 : ℚ) ^ p.2)

/-- `is_numeric` (main.py:144-150). -/
def is_numeric (s : String) : Bool :=
  (numericValue? s).isSome

/-- The accumulation step of `calculate_column_sum`'s loop: `none` plays the
role of `has_numbers == False`. -/
def sumStep (ci : Nat) (acc : Option ℚ) (r : Row) : Option ℚ :=
  match r[ci]? with
  | some cell =>
    match numericValue? cell with
    | some v => some (acc.getD 0 + v)
    | none => acc
  | none => acc

/-- The numeric content of `calculate_column_sum` (main.py:171-179):
`none` models the blank `''` returned when no numeric cell was found. -/
def calcSumAux (data : List Row) (ci : Nat) : Option ℚ :=
  data.foldl (sumStep ci) none

/-- The accumulation step of `calculate_column_max`'s loop. -/
def maxStep (ci : Nat) (acc : Option ℚ) (r : Row) : Option ℚ :=
  match r[ci]? with
  | some cell =>
    match numericValue? cell with
    | some v =>
      match acc with
      | none => some v
      | some m => if v > m then some v else some m
    | none => acc
  | none => acc

/-- The numeric content of `calculate_column_max` (main.py:182-190). -/
def calcMaxAux (data : List Row) (ci : Nat) : Option ℚ :=
  data.foldl (maxStep ci) none

/-- Decimal digits of `n`, left-padded with zeros to width `w`. -/
def padZeros (w : Nat) (n : Nat) : String :=
  let s := toString n
  String.mk (List.replicate (w - s.length) '0') ++ s

/-- `str(total)` for the totals row: a decimal rendering of the rational
(Python renders the float; on this program's short decimal data the two
agree).  Uninspected by the claims; present to keep `totalsRow` total. -/
def ratStr (q : ℚ) : String :=
  let sign := if q < 0 then "-" else ""
  let a := |q|
  if a.den = 1 then sign ++ toString a.num.natAbs ++ ".0"
  else
    match (List.range 25).find? (fun k => (a * (10 : ℚ) ^ (k + 1)).den = 1) with
    | some k =>
      let m := (a * (10 : ℚ) ^ (k + 1)).num.natAbs
      let p := (10 : Nat) ^ (k + 1)
      sign ++ toString (m / p) ++ "." ++ padZeros (k + 1) (m % p)
    | none => sign ++ toString a.num.natAbs ++ "/" ++ toString a.den

/-- `calculate_column_sum` (main.py:171-179): `str(total)` when a numeric
cell was found, the blank string `''` otherwise. -/
def calculate_column_sum (data : List Row) (ci : Nat) : String :=
  match calcSumAux data ci with
  | some t => ratStr t
  | none => ""

/-- `calculate_column_max` (main.py:182-190): `str(max_val)` when a numeric
cell was found, the blank string `''` otherwise. -/
def calculate_column_max (data : List Row) (ci : Nat) : String :=
  match calcMaxAux data ci with
  | some m => ratStr m
  | none => ""

/-- Two-decimal rendering `f"{num:.2f}"` (rounding at the half to the nearer
hundredth; ties are outside the claims' data). -/
def fmt2 (q : ℚ) : String :=
  let n : ℤ := ⌊q * 100 + 1 / 2⌋
  let sign := if n < 0 then "-" else ""
  let m := n.natAbs
  sign ++ toString (m / 100) ++ "." ++ padZeros 2 (m % 100)

/-- `format_as_percentage` (main.py:162-168) on an already-parsed value (in
the totals row the source formats `str(max_val)`, whose parse is the value
itself). -/
def format_as_percentage (q : ℚ) : String := fmt2 q ++ "%"

/-- Thousands grouping of `f"{num:,.2f}".replace(',', ' ')`: a space every
three digits of the integer part. -/
def groupDigits (n : Nat) : String :=
  let rec revGroup : List Char → Nat → List Char
    | [], _ => []
    | [c], _ => [c]
    | c :: cs, k => if k = 1 then c :: ' ' :: revGroup cs 3 else c :: revGroup cs (k - 1)
  String.mk ((revGroup (toString n).data.reverse 3).reverse)

/-- `format_as_currency` (main.py:153-159) on an already-parsed value:
space-grouped thousands, decimal comma, `" zł"` suffix. -/
def format_as_currency (q : ℚ) : String :=
  let n : ℤ := ⌊q * 100 + 1 / 2⌋
  let sign := if n < 0 then "-" else ""
  let m := n.natAbs
  sign ++ groupDigits (m / 100) ++ "," ++ padZeros 2 (m % 100) ++ " zł"

/-- The loop body of the totals row in `create_large_table`
(main.py:466-482): the cell appended for column index `ci ≥ 1`.  In the
source the percentage branch formats `calculate_column_max`'s string and the
currency branch formats `calculate_column_sum`'s string; formatting the
parsed value directly is the same composition (`str` round-trips the
value). -/
def totalsCell (data : List Row)
    (currency_columns currency_columns_2 percentage_columns : List Nat)
    (ci : Nat) : String :=
  if currency_columns_2.contains ci then ""
  else if percentage_columns.contains ci then
    match calcMaxAux data ci with
    | some m => format_as_percentage m
    | none => ""
  else
    match calcSumAux data ci with
    | some s =>
      if currency_columns.contains ci then format_as_currency s else ratStr s
    | none => ""

/-- The totals row built by `create_large_table` (main.py:461-483), one cell
per column; cells are modelled by their text content (the `Paragraph`
wrapping and styles are presentation only).  Column 0 always carries the
fixed label `'SUMA'`; the loop runs over `range(1, num_cols)`. -/
def totalsRow (data : List Row) (num_cols : Nat)
    (currency_columns currency_columns_2 percentage_columns : List Nat) :
    List String :=
  "SUMA" :: (List.range' 1 (num_cols - 1)).map
    (totalsCell data currency_columns currency_columns_2 percentage_columns)

/-! ## Filename derivation (`ReportFactory.generate_report`) -/

/-- The backslash character. -/
def bslash : Char := Char.ofNat 92

/-- The `ReportType` enum (report_types.py:12-21). -/
inductive ReportType where
  | rozliczenie_a_kwartal
  | rozliczenie_b_kwartal
  | rozliczenie_b_miesiac
  | wykonanie_a_typ_a_tydzien
  | wykonanie_a_typ_b_tydzien
  | wykonanie_b_typ_a_tydzien
  | wykonanie_b_typ_b_tydzien
deriving DecidableEq, Repr

/-- `ReportType.value`. -/
def ReportType.value : ReportType → String
  | .rozliczenie_a_kwartal => "rozliczenie_grupa_a_kwartal"
  | .rozliczenie_b_kwartal => "rozliczenie_grupa_b_kwartal"
  | .rozliczenie_b_miesiac => "rozliczenie_grupa_b_miesiac"
  | .wykonanie_a_typ_a_tydzien => "wykonanie_grupa_a_typ_a_tydzien"
  | .wykonanie_a_typ_b_tydzien => "wykonanie_grupa_a_typ_b_tydzien"
  | .wykonanie_b_typ_a_tydzien => "wykonanie_grupa_b_typ_a_tydzien"
  | .wykonanie_b_typ_b_tydzien => "wykonanie_grupa_b_typ_b_tydzien"

/-- The output filename derived in `ReportFactory.generate_report`
(report_factory.py:509-514): `safe_nr` has `/` and `\` replaced by `_`;
`safe_lok` (only when the location is truthy) has spaces and `/` replaced —
but not `\`. -/
def derive_filename (rt : ReportType) (nr : String) (lok : Option String) :
    String :=
  let safe_nr := strReplace (strReplace nr "/" "_") (String.mk [bslash]) "_"
  match lok with
  | some l =>
    if l ≠ "" then
      let safe_lok := strReplace (strReplace l " " "_") "/" "_"
      rt.value ++ "_" ++ safe_nr ++ "_" ++ safe_lok ++ ".pdf"
    else rt.value ++ "_" ++ safe_nr ++ ".pdf"
  | none => rt.value ++ "_" ++ safe_nr ++ ".pdf"

/-! ## Specification-side definitions and concrete instances for the claims -/

/-- Specification-side reading of a column: the values of the cells at
`ci` that parse as numbers, in row order (short and non-numeric rows
contribute nothing). -/
def parseableCells (data : List Row) (ci : Nat) : List ℚ :=
  data.filterMap (fun r => (r[ci]?).bind numericValue?)

/-- The table query of the end-to-end scenario (spec §8.7, with the entity
column named as in the code). -/
def scenarioTemplate : String := "SELECT name, amount FROM T WHERE nr_umowy = '{nr}'"

/-- The database of the end-to-end scenario: the rewritten base query yields
the three rows `("A","x",10), ("A","y",20), ("B","z",5)`; any other query is
rejected, which proves that only the rewritten text is ever executed. -/
def scenarioDb : Db := fun q =>
  if q = "SELECT nr_umowy, name, amount FROM T" then
    .ok [[some "A", some "x", some "10"],
         [some "A", some "y", some "20"],
         [some "B", some "z", some "5"]]
  else .error "unexpected query"

/-- A template with an entity filter, used on the non-prefetched fallback path. -/
def fallbackTemplate : String := "SELECT a FROM t WHERE nr_umowy = '{nr}'"

/-- A database that answers exactly the string-interpolated resolution of
`fallbackTemplate` for entity `A` and rejects everything else: it witnesses
which query text the fallback path executes. -/
def interpolationDb : Db := fun q =>
  if q = "SELECT a FROM t WHERE nr_umowy = 'A'" then .ok [[some "r"]]
  else .error "unexpected query"

/-- Template text with the entity literal `'A'` baked in. -/
def dupTemplateA : String := "SELECT a FROM t WHERE nr_umowy = 'A'"

/-- Template text with the entity literal `'B'` baked in; distinct text, but
it rewrites to the same base query as `dupTemplateA`. -/
def dupTemplateB : String := "SELECT a FROM t WHERE nr_umowy = 'B'"

/-- A database that accepts every query with an empty result set. -/
def emptyOkDb : Db := fun _ => .ok []

/-- A database on which every execution fails. -/
def failDb : Db := fun _ => .error "boom"

/-- A template that projects `nr_umowy` itself but carries an additional,
unprojected location filter. -/
def projButLokTemplate : String :=
  "SELECT nr_umowy, a FROM t WHERE nr_umowy = '{nr}' AND nazwa_sklepu = '{lok}'"

/-- A template with an entity filter whose column is already projected
(and no location filter). -/
def projNrTemplate : String := "SELECT nr_umowy, a FROM t WHERE nr_umowy = '{nr}'"

end PdfReport

deriving instance DecidableEq for Except

namespace PdfReport

/-! ## Helper lemmas -/

theorem data_append (a b : String) : (a ++ b).data = a.data ++ b.data := rfl

theorem mem_replaceAllL {c : Char} {pat repl : List Char} {fuel : Nat} {s : List Char}
    (h : c ∈ replaceAllL pat repl fuel s) : c ∈ repl ∨ c ∈ s := by
  induction fuel generalizing s with
  | zero => exact Or.inr h
  | succ fuel ih =>
    match s with
    | [] => simp [replaceAllL] at h
    | a :: cs =>
      rw [replaceAllL] at h
      by_cases hp : (pat.isPrefixOf (a :: cs) && !pat.isEmpty) = true
      · rw [if_pos hp] at h
        rcases List.mem_append.mp h with h1 | h2
        · exact Or.inl h1
        · rcases ih h2 with h3 | h3
          · exact Or.inl h3
          · exact Or.inr ((List.drop_sublist _ _).subset h3)
      · rw [if_neg hp] at h
        rcases List.mem_cons.mp h with h1 | h2
        · exact Or.inr (h1 ▸ List.mem_cons_self a cs)
        · rcases ih h2 with h3 | h3
          · exact Or.inl h3
          · exact Or.inr (List.mem_cons_of_mem a h3)

theorem not_mem_replaceAllL_single {c : Char} {repl : List Char} (hc : c ∉ repl)
    {fuel : Nat} {s : List Char} (hf : s.length ≤ fuel) :
    c ∉ replaceAllL [c] repl fuel s := by
  induction fuel generalizing s with
  | zero =>
    have : s = [] := List.eq_nil_of_length_eq_zero (Nat.le_zero.mp hf)
    subst this
    simp [replaceAllL]
  | succ fuel ih =>
    match s with
    | [] => simp [replaceAllL]
    | a :: cs =>
      rw [replaceAllL]
      have hlen : cs.length ≤ fuel := by
        simpa using Nat.succ_le_succ_iff.mp (by simpa using hf)
      by_cases hp : ([c].isPrefixOf (a :: cs) && !(List.isEmpty [c])) = true
      · rw [if_pos hp]
        intro hm
        rcases List.mem_append.mp hm with h1 | h2
        · exact hc h1
        · exact ih hlen (by simpa using h2)
      · rw [if_neg hp]
        intro hm
        rcases List.mem_cons.mp hm with h1 | h2
        · subst h1
          simp [List.isPrefixOf] at hp
        · exact ih hlen h2

theorem lookupCache_append (c1 c2 : Cache) (t : String) :
    lookupCache (c1 ++ c2) t =
      match lookupCache c1 t with
      | some v => some v
      | none => lookupCache c2 t := by
  induction c1 with
  | nil => simp [lookupCache]
  | cons p rest ih =>
    by_cases h : p.1 = t
    · simp [lookupCache, h]
    · simp only [List.cons_append, lookupCache, if_neg h]
      exact ih

theorem filterRowsByCol_ok_of_len {rows : List Row} {i : Nat} {v : String}
    (h : ∀ r ∈ rows, i < r.length) :
    filterRowsByCol rows i v = .ok (rows.filter (fun r => r.getD i "" == v)) := by
  induction rows with
  | nil => rfl
  | cons r rest ih =>
    have hr : i < r.length := h r (List.mem_cons_self r rest)
    have hget : r[i]? = some (r.getD i "") := by
      rw [List.getD_eq_getElem?_getD, List.getElem?_eq_getElem hr]
      rfl
    have hrest : filterRowsByCol rest i v =
        .ok (rest.filter (fun r => r.getD i "" == v)) :=
      ih (fun x hx => h x (List.mem_cons_of_mem r hx))
    rw [filterRowsByCol, hget, hrest]
    by_cases hv : r.getD i "" = v
    · simp [List.filter_cons, hv]
    · simp [List.filter_cons, hv]

theorem filterRowsByCol_sublist {rows out : List Row} {i : Nat} {v : String}
    (h : filterRowsByCol rows i v = .ok out) : out.Sublist rows := by
  induction rows generalizing out with
  | nil =>
    simp only [filterRowsByCol] at h
    cases h
    exact List.Sublist.refl []
  | cons r rest ih =>
    rw [filterRowsByCol] at h
    cases hget : r[i]? with
    | none => rw [hget] at h; cases h
    | some c =>
      rw [hget] at h
      cases hrec : filterRowsByCol rest i v with
      | error e => rw [hrec] at h; cases h
      | ok tail =>
        rw [hrec] at h
        cases h
        by_cases hv : c = v
        · simpa [hv] using (ih hrec).cons₂ r
        · simpa [hv] using (ih hrec).cons r

/-! ## C2 — fallback path: bound parameters vs string interpolation -/

/-- C2, counterexample: the query text executed on the fallback path embeds
the entity value and therefore varies with it — `get` does **not** bind
`entity_id` as a parameter of a fixed parameterized query; it interpolates
the value into the SQL text. -/
theorem claim_C2_counterexample :
    resolvedFallback fallbackTemplate (some "A") none =
      "SELECT a FROM t WHERE nr_umowy = 'A'" ∧
    resolvedFallback fallbackTemplate (some "B") none =
      "SELECT a FROM t WHERE nr_umowy = 'B'" ∧
    resolvedFallback fallbackTemplate (some "A") none ≠
      resolvedFallback fallbackTemplate (some "B") none := by
  refine ⟨by decide, by decide, by decide⟩

/-- C2 (amended): for a template that was not prefetched, `get` executes the
template with `{nr}` textually replaced by the stringified entity value (and
`{lok}` by the location when truthy) — string interpolation, not bound
parameters.  The database oracle here accepts exactly the interpolated text
and rejects every other query, so the successful call proves which SQL text
the fallback path executed. -/
theorem claim_C2_fallback_interpolates :
    QueryCache.get interpolationDb [] fallbackTemplate (some "A") none =
      .ok [["r"]] ∧
    resolvedFallback fallbackTemplate (some "A") none =
      "SELECT a FROM t WHERE nr_umowy = 'A'" := by
  refine ⟨by decide, by decide⟩

/-! ## C4 — filename derivation and path separators -/

theorem rt_value_no_seps (rt : ReportType) :
    '/' ∉ rt.value.data ∧ bslash ∉ rt.value.data := by
  cases rt <;> exact ⟨by decide, by decide⟩

theorem safe_nr_no_slash (nr : String) :
    '/' ∉ (strReplace (strReplace nr "/" "_") (String.mk [bslash]) "_").data := by
  intro hmem
  have hinner : '/' ∉ (strReplace nr "/" "_").data := by
    simpa [strReplace] using
      not_mem_replaceAllL_single (show '/' ∉ ['_'] from by decide)
        (Nat.le_refl _)
  rcases mem_replaceAllL (by simpa [strReplace] using hmem) with h | h
  · simp at h
  · exact hinner h

theorem safe_nr_no_bslash (nr : String) :
    bslash ∉ (strReplace (strReplace nr "/" "_") (String.mk [bslash]) "_").data := by
  simpa [strReplace] using
    not_mem_replaceAllL_single (show bslash ∉ ['_'] from by decide)
      (Nat.le_refl _)

theorem safe_lok_no_slash (l : String) :
    '/' ∉ (strReplace (strReplace l " " "_") "/" "_").data := by
  simpa [strReplace] using
    not_mem_replaceAllL_single (show '/' ∉ ['_'] from by decide)
      (Nat.le_refl _)

theorem safe_lok_bslash (l : String) :
    bslash ∈ (strReplace (strReplace l " " "_") "/" "_").data → bslash ∈ l.data := by
  intro hmem
  rcases mem_replaceAllL (by simpa [strReplace] using hmem) with h | h
  · exact absurd h (by decide)
  · rcases mem_replaceAllL (by simpa [strReplace] using h) with h2 | h2
    · exact absurd h2 (by decide)
    · exact h2

/-- C4 (amended): the derived filename is a pure function of its inputs,
never contains `/`, and contains `\` only when a location was given that
itself contains `\` (the entity number is sanitised for both separators,
the location only for `/`). -/
theorem claim_C4_filename_separators (rt : ReportType) (nr : String)
    (lok : Option String) :
    '/' ∉ (derive_filename rt nr lok).data ∧
    (bslash ∈ (derive_filename rt nr lok).data →
      ∃ l, lok = some l ∧ bslash ∈ l.data) := by
  have hrt := rt_value_no_seps rt
  have hu : '/' ∉ ("_" : String).data ∧ bslash ∉ ("_" : String).data := by
    exact ⟨by decide, by decide⟩
  have hp : '/' ∉ (".pdf" : String).data ∧ bslash ∉ (".pdf" : String).data := by
    exact ⟨by decide, by decide⟩
  cases lok with
  | none =>
    constructor
    · intro hmem
      simp only [derive_filename, data_append, List.mem_append] at hmem
      rcases hmem with ((h | h) | h) | h
      · exact hrt.1 h
      · exact hu.1 h
      · exact safe_nr_no_slash nr h
      · exact hp.1 h
    · intro hmem
      simp only [derive_filename, data_append, List.mem_append] at hmem
      rcases hmem with ((h | h) | h) | h
      · exact absurd h hrt.2
      · exact absurd h hu.2
      · exact absurd h (safe_nr_no_bslash nr)
      · exact absurd h hp.2
  | some l =>
    by_cases hl : l = ""
    · subst hl
      constructor
      · intro hmem
        simp only [derive_filename, if_neg (by simp : ¬("" : String) ≠ ""),
          data_append, List.mem_append] at hmem
        rcases hmem with ((h | h) | h) | h
        · exact hrt.1 h
        · exact hu.1 h
        · exact safe_nr_no_slash nr h
        · exact hp.1 h
      · intro hmem
        simp only [derive_filename, if_neg (by simp : ¬("" : String) ≠ ""),
          data_append, List.mem_append] at hmem
        rcases hmem with ((h | h) | h) | h
        · exact absurd h hrt.2
        · exact absurd h hu.2
        · exact absurd h (safe_nr_no_bslash nr)
        · exact absurd h hp.2
    · constructor
      · intro hmem
        simp only [derive_filename, if_pos hl, data_append, List.mem_append] at hmem
        rcases hmem with ((((h | h) | h) | h) | h) | h
        · exact hrt.1 h
        · exact hu.1 h
        · exact safe_nr_no_slash nr h
        · exact hu.1 h
        · exact safe_lok_no_slash l h
        · exact hp.1 h
      · intro hmem
        simp only [derive_filename, if_pos hl, data_append, List.mem_append] at hmem
        rcases hmem with ((((h | h) | h) | h) | h) | h
        · exact absurd h hrt.2
        · exact absurd h hu.2
        · exact absurd h (safe_nr_no_bslash nr)
        · exact absurd h hu.2
        · exact ⟨l, rfl, safe_lok_bslash l h⟩
        · exact absurd h hp.2

/-- C4, witness: concrete application of `claim_C4_filename_separators`. -/
theorem claim_C4_witness :
    '/' ∉ (derive_filename .wykonanie_a_typ_a_tydzien "UM/7" (some "x y")).data ∧
    ∃ l, (some ("a" ++ String.mk [bslash] ++ "b") : Option String) = some l ∧
      bslash ∈ l.data :=
  ⟨(claim_C4_filename_separators .wykonanie_a_typ_a_tydzien "UM/7" (some "x y")).1,
   (claim_C4_filename_separators .wykonanie_a_typ_a_tydzien "N"
      (some ("a" ++ String.mk [bslash] ++ "b"))).2 (by decide)⟩

/-- C4, counterexample: with a location containing a backslash the derived
filename contains a backslash — the claim's "never contains `'\'`" is false. -/
theorem claim_C4_counterexample :
    bslash ∈ (derive_filename .wykonanie_a_typ_b_tydzien "UM-1"
      (some ("a" ++ String.mk [bslash] ++ "b"))).data := by
  decide

/-! ## Column sums and maxima -/

theorem sumStep_eq (ci : Nat) (acc : Option ℚ) (r : Row) :
    sumStep ci acc r =
      match (r[ci]?).bind numericValue? with
      | none => acc
      | some v => some (acc.getD 0 + v) := by
  rcases hg : r[ci]? with _ | cell
  · simp [sumStep, hg]
  · rcases hv : numericValue? cell with _ | v
    · simp [sumStep, hg, hv]
    · simp [sumStep, hg, hv]

theorem maxStep_eq (ci : Nat) (acc : Option ℚ) (r : Row) :
    maxStep ci acc r =
      match (r[ci]?).bind numericValue? with
      | none => acc
      | some v =>
        match acc with
        | none => some v
        | some m => some (max m v) := by
  rcases hg : r[ci]? with _ | cell
  · simp [maxStep, hg]
  · rcases hv : numericValue? cell with _ | v
    · simp [maxStep, hg, hv]
    · rcases acc with _ | m
      · simp [maxStep, hg, hv]
      · by_cases h : v > m
        · simp [maxStep, hg, hv, if_pos h, max_eq_right (le_of_lt h)]
        · simp [maxStep, hg, hv, if_neg h, max_eq_left (not_lt.mp h)]

theorem foldl_add_shift (l : List ℚ) (a : ℚ) :
    l.foldl (· + ·) a = a + l.foldl (· + ·) 0 := by
  induction l generalizing a with
  | nil => simp
  | cons x xs ih =>
    simp only [List.foldl_cons]
    rw [ih (a + x), ih (0 + x)]
    ring

theorem foldl_sumStep_some (ci : Nat) (data : List Row) (q : ℚ) :
    data.foldl (sumStep ci) (some q) =
      some (q + (parseableCells data ci).foldl (· + ·) 0) := by
  induction data generalizing q with
  | nil => simp [parseableCells]
  | cons r rest ih =>
    rw [List.foldl_cons, sumStep_eq]
    cases hf : (r[ci]?).bind numericValue? with
    | none => rw [ih]; simp [parseableCells, List.filterMap_cons, hf]
    | some v =>
      simp only [Option.getD_some]
      rw [ih]
      simp only [parseableCells, List.filterMap_cons, hf, List.foldl_cons]
      rw [foldl_add_shift _ (0 + v), zero_add, add_assoc]

theorem calcSumAux_eq (data : List Row) (ci : Nat) :
    calcSumAux data ci =
      if parseableCells data ci = [] then none
      else some ((parseableCells data ci).sum) := by
  induction data with
  | nil => simp [calcSumAux, parseableCells]
  | cons r rest ih =>
    unfold calcSumAux at ih ⊢
    rw [List.foldl_cons, sumStep_eq]
    cases hf : (r[ci]?).bind numericValue? with
    | none =>
      rw [ih]
      simp [parseableCells, List.filterMap_cons, hf]
    | some v =>
      simp only [Option.getD_none]
      rw [foldl_sumStep_some]
      simp only [parseableCells, List.filterMap_cons, hf]
      rw [if_neg (by simp)]
      have : (v :: List.filterMap (fun r => (r[ci]?).bind numericValue?) rest).sum =
          v + (List.filterMap (fun r => (r[ci]?).bind numericValue?) rest).sum := by
        simp
      rw [this]
      congr 1
      have hs : ∀ l : List ℚ, l.foldl (· + ·) 0 = l.sum := by
        intro l
        induction l with
        | nil => simp
        | cons x xs ihl => rw [List.foldl_cons, foldl_add_shift, ihl]; simp
      rw [hs]
      ring

theorem foldl_maxStep_some (ci : Nat) (data : List Row) (m : ℚ) :
    data.foldl (maxStep ci) (some m) =
      some ((parseableCells data ci).foldl max m) := by
  induction data generalizing m with
  | nil => simp [parseableCells]
  | cons r rest ih =>
    rw [List.foldl_cons, maxStep_eq]
    cases hf : (r[ci]?).bind numericValue? with
    | none => rw [ih]; simp [parseableCells, List.filterMap_cons, hf]
    | some v =>
      rw [ih]
      simp [parseableCells, List.filterMap_cons, hf]

theorem calcMaxAux_eq (data : List Row) (ci : Nat) :
    calcMaxAux data ci = (parseableCells data ci).max? := by
  induction data with
  | nil => simp [calcMaxAux, parseableCells]
  | cons r rest ih =>
    unfold calcMaxAux at ih ⊢
    rw [List.foldl_cons, maxStep_eq]
    cases hf : (r[ci]?).bind numericValue? with
    | none =>
      rw [ih]
      simp [parseableCells, List.filterMap_cons, hf]
    | some v =>
      rw [foldl_maxStep_some]
      simp [parseableCells, List.filterMap_cons, hf, List.max?]

/-- C5 (confirmed): the numeric content of `calculate_column_sum` is the
arithmetic sum of the parseable numeric cells of the column (decimal comma
or point, embedded spaces ignored, non-numeric cells skipped), and the
blank string — not `"0"` — is returned exactly when the column has no
numeric cell (including the empty row list): `sum(["10","20,50"]) = 30.50`,
`sum([]) = sum([["abc"],["def"]]) = ''`. -/
theorem claim_C5_column_sum :
    (∀ (data : List Row) (ci : Nat),
      calcSumAux data ci =
        if parseableCells data ci = [] then none
        else some ((parseableCells data ci).sum)) ∧
    calcSumAux [["10"], ["20,50"]] 0 = some (61 / 2) ∧
    calculate_column_sum [] 0 = "" ∧
    calculate_column_sum [["abc"], ["def"]] 0 = "" := by
  refine ⟨calcSumAux_eq, ?_, by decide, by decide⟩
  have h1 : numericParts? "10" = some (10, 0) := by decide
  have h2 : numericParts? "20,50" = some (2050, -2) := by decide
  norm_num [calcSumAux, sumStep, numericValue?, h1, h2]

/-- C10 (confirmed): `calculate_column_sum` and `calculate_column_max` are
total on ragged data — a row shorter than `col_index + 1` is skipped exactly
as a row with a non-numeric cell is, and removing such a row never changes
either result (the guard `col_index < len(row)` prevents any out-of-range
access). -/
theorem claim_C10_ragged_rows (ci : Nat) (d1 d2 : List Row) (r : Row)
    (h : r.length ≤ ci ∨ (r[ci]?).bind numericValue? = none) :
    calcSumAux (d1 ++ r :: d2) ci = calcSumAux (d1 ++ d2) ci ∧
    calcMaxAux (d1 ++ r :: d2) ci = calcMaxAux (d1 ++ d2) ci := by
  have hnone : (r[ci]?).bind numericValue? = none := by
    rcases h with h | h
    · rw [List.getElem?_eq_none h]
      rfl
    · exact h
  constructor
  · unfold calcSumAux
    rw [List.foldl_append, List.foldl_append, List.foldl_cons, sumStep_eq, hnone]
  · unfold calcMaxAux
    rw [List.foldl_append, List.foldl_append, List.foldl_cons, maxStep_eq, hnone]

/-- C10, witness: a one-cell row list with a too-short row inserted. -/
theorem claim_C10_witness :
    calcSumAux [[], ["5"]] 0 = calcSumAux [["5"]] 0 ∧
    calcMaxAux [[], ["5"]] 0 = calcMaxAux [["5"]] 0 :=
  claim_C10_ragged_rows 0 [] [["5"]] [] (Or.inl (by decide))

/-! ## Totals row -/

theorem contains_filter_ne_zero (l : List Nat) (ci : Nat) (h : ci ≠ 0) :
    (l.filter (fun x => x != 0)).contains ci = l.contains ci := by
  induction l with
  | nil => rfl
  | cons a as ih =>
    by_cases ha : a = 0
    · subst ha
      simp [List.filter_cons, ih, h]
    · simp [List.filter_cons, bne_iff_ne.mpr ha, ih, h]

theorem totalsRow_getElem? (data : List Row) (n : Nat) (cc cc2 pc : List Nat)
    (ci : Nat) (h1 : 1 ≤ ci) (h2 : ci < n) :
    (totalsRow data n cc cc2 pc)[ci]? = some (totalsCell data cc cc2 pc ci) := by
  obtain ⟨j, rfl⟩ : ∃ j, ci = j + 1 := ⟨ci - 1, by omega⟩
  unfold totalsRow
  rw [List.getElem?_cons_succ, List.getElem?_map,
    List.getElem?_range' 1 1 (show j < n - 1 by omega)]
  simp [Nat.add_comm]

/-- C9 (confirmed): the totals row starts with the fixed label `'SUMA'` in
column 0, has one cell per column, and is unaffected by listing column 0
among the currency / percentage configuration lists — no sum or max is ever
computed for column 0; computed cells exist only at indices `1 .. num_cols-1`. -/
theorem claim_C9_suma_column_zero (data : List Row) (n : Nat)
    (cc cc2 pc : List Nat) :
    (totalsRow data n cc cc2 pc)[0]? = some "SUMA" ∧
    (totalsRow data n cc cc2 pc).length = 1 + (n - 1) ∧
    totalsRow data n cc cc2 pc =
      totalsRow data n (cc.filter (fun x => x != 0)) (cc2.filter (fun x => x != 0))
        (pc.filter (fun x => x != 0)) := by
  refine ⟨by simp [totalsRow], by simp [totalsRow]; omega, ?_⟩
  unfold totalsRow
  congr 1
  apply List.map_congr_left
  intro ci hci
  have hne : ci ≠ 0 := by
    have := List.mem_range'_1.mp hci
    omega
  simp only [totalsCell]
  rw [contains_filter_ne_zero cc ci hne, contains_filter_ne_zero cc2 ci hne,
    contains_filter_ne_zero pc ci hne]

theorem fmt2_99 : format_as_percentage ((99 : ℚ) * (10 : ℚ) ^ (-1 : ℤ)) = "9.90%" := by
  have hf : (⌊((99 : ℚ) * (10 : ℚ) ^ (-1 : ℤ)) * 100 + 1 / 2⌋ : ℤ) = 990 := by
    rw [Int.floor_eq_iff]
    constructor <;> norm_num
  simp only [format_as_percentage, fmt2, hf]
  decide

theorem calcMax_scenario :
    calcMaxAux [["a", "1.5"], ["b", "9.9"], ["c", "3"]] 1 =
      some ((99 : ℚ) * (10 : ℚ) ^ (-1 : ℤ)) := by
  have h1 : numericParts? "1.5" = some (15, -1) := by decide
  have h2 : numericParts? "9.9" = some (99, -1) := by decide
  have h3 : numericParts? "3" = some (3, 0) := by decide
  norm_num [calcMaxAux, maxStep, numericValue?, h1, h2, h3, List.foldl]

theorem calcMax_scenario_col0 :
    calcMaxAux [["1.5"], ["9.9"], ["3"]] 0 =
      some ((99 : ℚ) * (10 : ℚ) ^ (-1 : ℤ)) := by
  have h1 : numericParts? "1.5" = some (15, -1) := by decide
  have h2 : numericParts? "9.9" = some (99, -1) := by decide
  have h3 : numericParts? "3" = some (3, 0) := by decide
  norm_num [calcMaxAux, maxStep, numericValue?, h1, h2, h3, List.foldl]

/-- C6 (amended): for a percentage-configured column index `ci` with
`1 ≤ ci < num_cols` that is not also listed in `currency_columns_2`, the
totals-row value is the **maximum** of the column's parseable numeric cells
formatted as a percentage (blank when there are none), not their sum; for
the values 1.5, 9.9, 3 the totals value is `9.90%`.  (For column index 0 the
totals cell is the fixed label `'SUMA'` regardless of configuration.) -/
theorem claim_C6_percentage_max (data : List Row) (n : Nat)
    (cc cc2 pc : List Nat) (ci : Nat) (h1 : 1 ≤ ci) (h2 : ci < n)
    (hpc : pc.contains ci = true) (hcc2 : cc2.contains ci = false) :
    (totalsRow data n cc cc2 pc)[ci]? =
      some (match (parseableCells data ci).max? with
        | some m => format_as_percentage m
        | none => "") ∧
    totalsRow [["a", "1.5"], ["b", "9.9"], ["c", "3"]] 2 [] [] [1] =
      ["SUMA", "9.90%"] := by
  constructor
  · rw [totalsRow_getElem? data n cc cc2 pc ci h1 h2]
    have hp : ci ∈ pc := by simpa using hpc
    have hc2 : ci ∉ cc2 := by simpa using hcc2
    simp [totalsCell, hp, hc2, calcMaxAux_eq]
  · unfold totalsRow
    simp only [List.range', List.map]
    rw [show totalsCell [["a", "1.5"], ["b", "9.9"], ["c", "3"]] [] [] [1] 1 =
        format_as_percentage ((99 : ℚ) * (10 : ℚ) ^ (-1 : ℤ)) from ?_, fmt2_99]
    simp [totalsCell, calcMax_scenario]

/-- C6, witness: concrete application of `claim_C6_percentage_max`. -/
theorem claim_C6_witness :
    (totalsRow [["a", "1.5"], ["b", "9.9"], ["c", "3"]] 2 [] [] [1])[1]? =
      some (match (parseableCells [["a", "1.5"], ["b", "9.9"], ["c", "3"]] 1).max? with
        | some m => format_as_percentage m
        | none => "") :=
  (claim_C6_percentage_max [["a", "1.5"], ["b", "9.9"], ["c", "3"]] 2 [] [] [1] 1
    (by decide) (by decide) (by decide) (by decide)).1

/-! ## Trim idempotence and the query cache -/

theorem dropWhile_dropWhile (p : Char → Bool) (l : List Char) :
    (l.dropWhile p).dropWhile p = l.dropWhile p := by
  induction l with
  | nil => rfl
  | cons c cs ih =>
    by_cases hc : p c = true
    · simp [List.dropWhile_cons, hc, ih]
    · simp [List.dropWhile_cons, hc]

theorem dropWhile_head_false (p : Char → Bool) :
    ∀ (l : List Char) (c : Char) (cs : List Char),
      l.dropWhile p = c :: cs → p c = false := by
  intro l
  induction l with
  | nil => intro c cs h; cases h
  | cons a as ih =>
    intro c cs h
    rw [List.dropWhile_cons] at h
    by_cases ha : p a = true
    · rw [if_pos ha] at h
      exact ih c cs h
    · rw [if_neg ha] at h
      cases h
      simpa using ha

theorem trim_head (l : List Char) :
    (trimChars l).dropWhile isPySpace = trimChars l := by
  unfold trimChars
  generalize hA : l.dropWhile isPySpace = A
  cases hBr : (A.reverse.dropWhile isPySpace).reverse with
  | nil => simp [hBr]
  | cons c cs =>
    have hpre : (A.reverse.dropWhile isPySpace).reverse <+: A := by
      have h' : ((A.reverse.dropWhile isPySpace).reverse).reverse <:+ A.reverse := by
        simpa using List.dropWhile_suffix (l := A.reverse) isPySpace
      exact List.reverse_suffix.mp h'
    rw [hBr] at hpre
    obtain ⟨tail, htail⟩ := hpre
    have hAeq : A = c :: (cs ++ tail) := by rw [← htail]; simp
    have hc : isPySpace c = false :=
      dropWhile_head_false isPySpace l c (cs ++ tail) (by rw [hA, hAeq])
    simp [List.dropWhile_cons, hc]

theorem trim_tail (l : List Char) :
    (trimChars l).reverse.dropWhile isPySpace = (trimChars l).reverse := by
  unfold trimChars
  rw [List.reverse_reverse]
  exact dropWhile_dropWhile isPySpace _

theorem trimChars_idem (l : List Char) : trimChars (trimChars l) = trimChars l := by
  conv_lhs => rw [trimChars, trim_head, trim_tail, List.reverse_reverse]

theorem make_base_query_eq_of_trim (t u : String)
    (h : trimChars t.data = trimChars u.data) :
    make_base_query t = make_base_query u := by
  unfold make_base_query
  rw [h]

theorem make_base_query_strTrim (t : String) :
    make_base_query (strTrim t) = make_base_query t :=
  make_base_query_eq_of_trim (strTrim t) t (trimChars_idem t.data)

theorem filterStep_none_ok (rows : List Row) (i? : Option Nat) :
    filterStep rows none i? = .ok rows := by
  rcases i? with _ | i <;> rfl

theorem filterStep_ok_sublist {rows out : List Row} {v? : Option String}
    {i? : Option Nat} (h : filterStep rows v? i? = .ok out) : out.Sublist rows := by
  rcases v? with _ | v
  · rw [filterStep_none_ok] at h
    cases h
    exact List.Sublist.refl rows
  · rcases i? with _ | i
    · have : rows = out := by simpa [filterStep] using h
      exact this ▸ List.Sublist.refl rows
    · exact filterRowsByCol_sublist (by simpa [filterStep] using h)

theorem get_cached_filter (db : Db) (cache : Cache) (t : String) (rows : List Row)
    (i : Nat) (X : String)
    (hlook : lookupCache cache (strTrim t) = some rows)
    (hnr : (make_base_query (strTrim t)).nrCol = some i)
    (hlen : ∀ r ∈ rows, i < r.length) :
    QueryCache.get db cache t (some X) none =
      .ok ((rows.filter (fun r => r.getD i "" == X)).map
        (List.drop (make_base_query (strTrim t)).addedCount)) := by
  simp only [QueryCache.get, hlook, hnr]
  simp only [filterStep, filterRowsByCol_ok_of_len hlen, filterStep_none_ok]
  by_cases ha : (make_base_query (strTrim t)).addedCount > 0
  · rw [if_pos ha]
  · rw [if_neg ha]
    have h0 : (make_base_query (strTrim t)).addedCount = 0 := by omega
    rw [h0]
    have hmap : ∀ l : List Row, List.map (List.drop 0) l = l := by
      intro l
      induction l with
      | nil => rfl
      | cons x xs ihl => simp [ihl]
    rw [hmap]

theorem get_cached_empty (db : Db) (cache : Cache) (t : String)
    (nr lok : Option String)
    (h : lookupCache cache (strTrim t) = some []) :
    QueryCache.get db cache t nr lok = .ok [] := by
  simp only [QueryCache.get, h]
  have h1 : ∀ i?, filterStep [] nr i? = .ok [] := by
    intro i?
    rcases nr with _ | v
    · exact filterStep_none_ok [] i?
    · rcases i? with _ | i <;> rfl
  have h2 : ∀ i?, filterStep [] lok i? = .ok [] := by
    intro i?
    rcases lok with _ | v
    · exact filterStep_none_ok [] i?
    · rcases i? with _ | i <;> rfl
  rw [h1]
  simp [h2]

theorem get_fallback_error (db : Db) (cache : Cache) (t : String)
    (nr lok : Option String) (e : String)
    (hc : lookupCache cache (strTrim t) = none)
    (hdb : db (resolvedFallback t nr lok) = .error e) :
    QueryCache.get db cache t nr lok = .error (.dbError e) := by
  simp only [QueryCache.get, hc, hdb]

theorem get_cached_sublist (db : Db) (cache : Cache) (t : String)
    (rows : List Row) (nr lok : Option String) (res : List Row)
    (hlook : lookupCache cache (strTrim t) = some rows)
    (hadd : (make_base_query (strTrim t)).addedCount = 0)
    (hget : QueryCache.get db cache t nr lok = .ok res) :
    res.Sublist rows := by
  simp only [QueryCache.get, hlook, hadd] at hget
  cases h1 : filterStep rows nr (make_base_query (strTrim t)).nrCol with
  | error e => simp [h1] at hget
  | ok rows1 =>
    simp only [h1] at hget
    cases h2 : filterStep rows1 lok (make_base_query (strTrim t)).lokCol with
    | error e => simp [h2] at hget
    | ok rows2 =>
      simp only [h2] at hget
      simp at hget
      subst hget
      exact (filterStep_ok_sublist h2).trans (filterStep_ok_sublist h1)

theorem prefetch_preserves (db : Db) (qs : List String) :
    ∀ (seen : List String) (cache : Cache) (t : String) (v : List Row),
      lookupCache cache t = some v →
      lookupCache (prefetch db qs seen cache).1 t = some v := by
  induction qs with
  | nil => intro seen cache t v h; simpa [prefetch] using h
  | cons q rest ih =>
    intro seen cache t v h
    simp only [prefetch]
    by_cases hskip :
        (seen.contains (strTrim q) || (lookupCache cache (strTrim q)).isSome) = true
    · rw [if_pos hskip]
      exact ih seen cache t v h
    · rw [if_neg hskip]
      cases hdb : db (make_base_query (strTrim q)).baseQuery with
      | ok rows =>
        exact ih _ _ t v (by rw [lookupCache_append, h])
      | error e =>
        exact ih _ _ t v (by rw [lookupCache_append, h])

theorem prefetch_mem_keys (db : Db) (qs : List String) (t : String) :
    ∀ (seen : List String) (cache : Cache),
      (∀ u, seen.contains u = true → (lookupCache cache u).isSome = true) →
      t ∈ qs →
      (lookupCache (prefetch db qs seen cache).1 (strTrim t)).isSome = true := by
  induction qs with
  | nil => intro seen cache _ ht; cases ht
  | cons q rest ih =>
    intro seen cache hinv ht
    simp only [prefetch]
    by_cases hskip :
        (seen.contains (strTrim q) || (lookupCache cache (strTrim q)).isSome) = true
    · rw [if_pos hskip]
      rcases List.mem_cons.mp ht with rfl | ht2
      · have hc : (lookupCache cache (strTrim t)).isSome = true := by
          rcases Bool.or_eq_true_iff.mp hskip with hx | hx
          · exact hinv _ hx
          · exact hx
        obtain ⟨v, hv⟩ := Option.isSome_iff_exists.mp hc
        rw [prefetch_preserves db rest seen cache _ v hv]
        rfl
      · exact ih seen cache hinv ht2
    · rw [if_neg hskip]
      have hnc : lookupCache cache (strTrim q) = none := by
        rcases hlc : lookupCache cache (strTrim q) with _ | v
        · rfl
        · exact absurd (by rw [hlc]; simp) hskip
      have key : ∀ X : List Row,
          (lookupCache (prefetch db rest (strTrim q :: seen)
            (cache ++ [(strTrim q, X)])).1 (strTrim t)).isSome = true := by
        intro X
        have hinv' : ∀ u, (strTrim q :: seen).contains u = true →
            (lookupCache (cache ++ [(strTrim q, X)]) u).isSome = true := by
          intro u hu
          rcases List.mem_cons.mp (by simpa using hu) with rfl | hu2
          · rw [lookupCache_append, hnc]
            simp [lookupCache]
          · obtain ⟨v, hv⟩ :=
              Option.isSome_iff_exists.mp (hinv u (by simpa using hu2))
            rw [lookupCache_append, hv]
            rfl
        rcases List.mem_cons.mp ht with rfl | ht2
        · have hv : lookupCache (cache ++ [(strTrim t, X)]) (strTrim t) = some X := by
            rw [lookupCache_append, hnc]
            simp [lookupCache]
          rw [prefetch_preserves db rest _ _ _ X hv]
          rfl
        · exact ih _ _ hinv' ht2
      cases hdb : db (make_base_query (strTrim q)).baseQuery with
      | ok rows => exact key (normalizeRows rows)
      | error e => exact key []

theorem prefetch_stores_empty (db : Db) (qs : List String) (t : String) (e : String)
    (hdb : db (make_base_query (strTrim t)).baseQuery = .error e) :
    ∀ (seen : List String) (cache : Cache),
      t ∈ qs →
      seen.contains (strTrim t) = false →
      lookupCache cache (strTrim t) = none →
      lookupCache (prefetch db qs seen cache).1 (strTrim t) = some [] := by
  induction qs with
  | nil => intro seen cache ht _ _; cases ht
  | cons q rest ih =>
    intro seen cache ht hseen hcache
    simp only [prefetch]
    by_cases heq : strTrim q = strTrim t
    · rw [heq, if_neg (by rw [hseen, hcache]; simp), hdb]
      exact prefetch_preserves db rest _ _ _ []
        (by rw [lookupCache_append, hcache]; simp [lookupCache])
    · by_cases hskip :
          (seen.contains (strTrim q) || (lookupCache cache (strTrim q)).isSome) = true
      · rw [if_pos hskip]
        rcases List.mem_cons.mp ht with rfl | ht2
        · exact absurd rfl heq
        · exact ih seen cache ht2 hseen hcache
      · rw [if_neg hskip]
        have hseen' : (strTrim q :: seen).contains (strTrim t) = false := by
          rw [List.contains_cons, Bool.or_eq_false_iff]
          exact ⟨beq_eq_false_iff_ne.mpr (Ne.symm heq), hseen⟩
        have hcache' : ∀ X,
            lookupCache (cache ++ [(strTrim q, X)]) (strTrim t) = none := by
          intro X
          rw [lookupCache_append, hcache]
          simp [lookupCache, heq]
        rcases List.mem_cons.mp ht with rfl | ht2
        · exact absurd rfl heq
        · cases hdb2 : db (make_base_query (strTrim q)).baseQuery with
          | ok rows => exact ih _ _ ht2 hseen' (hcache' _)
          | error e2 => exact ih _ _ ht2 hseen' (hcache' _)

theorem prefetch_trace (db : Db) (qs : List String) :
    ∀ (seen : List String) (cache : Cache),
      (∀ p ∈ (prefetch db qs seen cache).2.1,
        p.2 = (make_base_query p.1).baseQuery ∧
        seen.contains p.1 = false ∧
        lookupCache cache p.1 = none ∧
        p.1 ∈ qs.map strTrim) ∧
      ((prefetch db qs seen cache).2.1.map Prod.fst).Nodup := by
  induction qs with
  | nil =>
    intro seen cache
    constructor
    · intro p hp
      simp [prefetch] at hp
    · simp [prefetch]
  | cons q rest ih =>
    intro seen cache
    simp only [prefetch]
    by_cases hskip :
        (seen.contains (strTrim q) || (lookupCache cache (strTrim q)).isSome) = true
    · rw [if_pos hskip]
      refine ⟨fun p hp => ?_, (ih seen cache).2⟩
      obtain ⟨h1, h2, h3, h4⟩ := (ih seen cache).1 p hp
      exact ⟨h1, h2, h3, by rw [List.map_cons]; exact List.mem_cons_of_mem _ h4⟩
    · rw [if_neg hskip]
      have hsq1 : seen.contains (strTrim q) = false := by
        rcases hb : seen.contains (strTrim q) with _ | _
        · rfl
        · exact absurd (by rw [hb]; simp) hskip
      have hsq2 : lookupCache cache (strTrim q) = none := by
        rcases hlc : lookupCache cache (strTrim q) with _ | v
        · rfl
        · exact absurd (by rw [hlc]; simp) hskip
      have key : ∀ X : List Row,
          (∀ p ∈ ((strTrim q, (make_base_query (strTrim q)).baseQuery) ::
              (prefetch db rest (strTrim q :: seen)
                (cache ++ [(strTrim q, X)])).2.1),
            p.2 = (make_base_query p.1).baseQuery ∧
            seen.contains p.1 = false ∧
            lookupCache cache p.1 = none ∧
            p.1 ∈ (q :: rest).map strTrim) ∧
          (((strTrim q, (make_base_query (strTrim q)).baseQuery) ::
              (prefetch db rest (strTrim q :: seen)
                (cache ++ [(strTrim q, X)])).2.1).map Prod.fst).Nodup := by
        intro X
        obtain ⟨ihp, ihn⟩ := ih (strTrim q :: seen) (cache ++ [(strTrim q, X)])
        constructor
        · intro p hp
          rcases List.mem_cons.mp hp with rfl | hp2
          · exact ⟨rfl, hsq1, hsq2, by simp⟩
          · obtain ⟨h1, h2, h3, h4⟩ := ihp p hp2
            have h2' : seen.contains p.1 = false := by
              rw [List.contains_cons, Bool.or_eq_false_iff] at h2
              exact h2.2
            have h3' : lookupCache cache p.1 = none := by
              rw [lookupCache_append] at h3
              rcases hlc : lookupCache cache p.1 with _ | v
              · rfl
              · rw [hlc] at h3; simp at h3
            exact ⟨h1, h2', h3',
              by rw [List.map_cons]; exact List.mem_cons_of_mem _ h4⟩
        · rw [List.map_cons]
          refine List.nodup_cons.mpr ⟨?_, ihn⟩
          intro hmem
          obtain ⟨p, hp, hfst⟩ := List.mem_map.mp hmem
          obtain ⟨_, h2, _, _⟩ := ihp p hp
          rw [List.contains_cons, Bool.or_eq_false_iff] at h2
          exact (beq_eq_false_iff_ne.mp h2.1) hfst
      cases hdb : db (make_base_query (strTrim q)).baseQuery with
      | ok rows => exact key (normalizeRows rows)
      | error e => exact key []

theorem prefetch_trace_nil_of_cached (db : Db) (qs : List String) :
    ∀ (seen : List String) (cache : Cache),
      (∀ t ∈ qs, (lookupCache cache (strTrim t)).isSome = true) →
      (prefetch db qs seen cache).2.1 = [] := by
  induction qs with
  | nil => intro seen cache _; rfl
  | cons q rest ih =>
    intro seen cache h
    simp only [prefetch]
    rw [if_pos (by rw [h q (List.mem_cons_self q rest)]; simp)]
    exact ih seen cache (fun t ht => h t (List.mem_cons_of_mem q ht))

/-- C6, counterexample: with column 0 configured as a percentage column the
totals-row value for that column is the label `'SUMA'`, not the maximum —
the claim's "for every ... column configured as a percentage column" fails
at column index 0. -/
theorem claim_C6_counterexample :
    (totalsRow [["1.5"], ["9.9"], ["3"]] 1 [] [] [0])[0]? = some "SUMA" ∧
    calcMaxAux [["1.5"], ["9.9"], ["3"]] 0 = some ((99 : ℚ) * (10 : ℚ) ^ (-1 : ℤ)) ∧
    (totalsRow [["1.5"], ["9.9"], ["3"]] 1 [] [] [0])[0]? ≠
      some (format_as_percentage ((99 : ℚ) * (10 : ℚ) ^ (-1 : ℤ))) := by
  refine ⟨rfl, calcMax_scenario_col0, ?_⟩
  rw [fmt2_99]
  decide

/-! ## C1 — filter correctness of the batch cache -/

/-- C1 (confirmed): for a prefetched template whose rewrite detected an
entity filter (so an entity column index is recorded), `get(T, entity_id=X)`
returns exactly the cached rows whose entity column equals the stringified
`X`, in original relative order, with the `prepended_count` synthetic leading
columns stripped; in the §8.7 instance the template
`SELECT name, amount FROM T WHERE nr_umowy = '{nr}'` is rewritten to
`SELECT nr_umowy, name, amount FROM T` with `prepended_count = 1`, and over
rows `[("A","x",10), ("A","y",20), ("B","z",5)]` a `get` for entity `"A"`
returns `[("x","10"), ("y","20")]` — exactly what the direct per-entity query
would have produced. -/
theorem claim_C1_filter_correctness :
    (∀ (db : Db) (cache : Cache) (t : String) (rows : List Row) (i : Nat)
        (X : String),
      lookupCache cache (strTrim t) = some rows →
      (make_base_query (strTrim t)).nrCol = some i →
      (∀ r ∈ rows, i < r.length) →
      QueryCache.get db cache t (some X) none =
        .ok ((rows.filter (fun r => r.getD i "" == X)).map
          (List.drop (make_base_query (strTrim t)).addedCount))) ∧
    make_base_query scenarioTemplate =
      { baseQuery := "SELECT nr_umowy, name, amount FROM T", nrCol := some 0,
        lokCol := none, addedCount := 1 } ∧
    QueryCache.get scenarioDb (prefetch scenarioDb [scenarioTemplate] [] []).1
      scenarioTemplate (some "A") none = .ok [["x", "10"], ["y", "20"]] :=
  ⟨fun db cache t rows i X h1 h2 h3 => get_cached_filter db cache t rows i X h1 h2 h3,
   by decide, by decide⟩

/-- C1, witness: concrete application of the universal part of
`claim_C1_filter_correctness`. -/
theorem claim_C1_witness :
    QueryCache.get emptyOkDb
      [(scenarioTemplate, [["A", "x", "10"], ["A", "y", "20"], ["B", "z", "5"]])]
      scenarioTemplate (some "A") none = .ok [["x", "10"], ["y", "20"]] := by
  have h := claim_C1_filter_correctness.1 emptyOkDb
    [(scenarioTemplate, [["A", "x", "10"], ["A", "y", "20"], ["B", "z", "5"]])]
    scenarioTemplate [["A", "x", "10"], ["A", "y", "20"], ["B", "z", "5"]] 0 "A"
    (by decide) (by decide) (by decide)
  exact h.trans (by decide)

/-! ## C3 — one execution per distinct template text -/

/-- C3 (amended): during `prefetch`, each distinct (trimmed) template text
that is not already cached triggers exactly one database execution — the
executed templates are pairwise distinct, each executed query text is its
template's rewritten base query, duplicates and cached templates are
skipped, and a second `prefetch` with the same list executes nothing.
(Uniqueness is per template text, not per rewritten base query.) -/
theorem claim_C3_execute_once_per_template :
    (∀ (db : Db) (qs : List String) (seen : List String) (cache : Cache),
      (∀ p ∈ (prefetch db qs seen cache).2.1,
        p.2 = (make_base_query p.1).baseQuery ∧
        seen.contains p.1 = false ∧
        lookupCache cache p.1 = none ∧
        p.1 ∈ qs.map strTrim) ∧
      ((prefetch db qs seen cache).2.1.map Prod.fst).Nodup) ∧
    (∀ (db : Db) (qs : List String),
      (prefetch db qs [] (prefetch db qs [] []).1).2.1 = []) :=
  ⟨fun db qs seen cache => prefetch_trace db qs seen cache,
   fun db qs =>
     prefetch_trace_nil_of_cached db qs [] _
       (fun t ht =>
         prefetch_mem_keys db qs t [] [] (fun _ hu => absurd hu (by simp)) ht)⟩

/-- C3, witness: concrete application of `claim_C3_execute_once_per_template`. -/
theorem claim_C3_witness :
    ((prefetch emptyOkDb [dupTemplateA, dupTemplateB] [] []).2.1.map
      Prod.fst).Nodup ∧
    (prefetch emptyOkDb [dupTemplateA, dupTemplateB] []
      (prefetch emptyOkDb [dupTemplateA, dupTemplateB] [] []).1).2.1 = [] :=
  ⟨(claim_C3_execute_once_per_template.1 emptyOkDb [dupTemplateA, dupTemplateB]
      [] []).2,
   claim_C3_execute_once_per_template.2 emptyOkDb [dupTemplateA, dupTemplateB]⟩

/-- C3, counterexample: two distinct template texts (`... = 'A'` vs
`... = 'B'`) rewrite to the same base query, and `prefetch` executes that
rewritten query twice — "no rewritten query is ever executed twice" is
false. -/
theorem claim_C3_counterexample :
    dupTemplateA ≠ dupTemplateB ∧
    (prefetch emptyOkDb [dupTemplateA, dupTemplateB] [] []).2.1.map Prod.snd =
      ["SELECT nr_umowy, a FROM t", "SELECT nr_umowy, a FROM t"] ∧
    ¬ ((prefetch emptyOkDb [dupTemplateA, dupTemplateB] [] []).2.1.map
        Prod.snd).Nodup :=
  ⟨by decide, by decide, by decide⟩

/-! ## C7 — error isolation during prefetch, propagation on fallback -/

/-- C7 (confirmed): a database failure for one template during `prefetch`
stores an empty result set for that template and does not prevent any other
template from being prefetched (every template ends up cached); a later
`get` on the failed template returns no rows instead of raising, whereas a
database failure on the direct non-prefetched fallback path of `get`
propagates to the caller. -/
theorem claim_C7_prefetch_error_isolation :
    (∀ (db : Db) (qs : List String) (t : String) (e : String),
      t ∈ qs →
      db (make_base_query (strTrim t)).baseQuery = .error e →
      lookupCache (prefetch db qs [] []).1 (strTrim t) = some []) ∧
    (∀ (db : Db) (qs : List String) (t : String),
      t ∈ qs →
      (lookupCache (prefetch db qs [] []).1 (strTrim t)).isSome = true) ∧
    (∀ (db : Db) (cache : Cache) (t : String) (nr lok : Option String),
      lookupCache cache (strTrim t) = some [] →
      QueryCache.get db cache t nr lok = .ok []) ∧
    (∀ (db : Db) (cache : Cache) (t : String) (nr lok : Option String)
        (e : String),
      lookupCache cache (strTrim t) = none →
      db (resolvedFallback t nr lok) = .error e →
      QueryCache.get db cache t nr lok = .error (.dbError e)) :=
  ⟨fun db qs t e ht hdb =>
     prefetch_stores_empty db qs t e hdb [] [] ht rfl rfl,
   fun db qs t ht =>
     prefetch_mem_keys db qs t [] [] (fun _ hu => absurd hu (by simp)) ht,
   fun db cache t nr lok h => get_cached_empty db cache t nr lok h,
   fun db cache t nr lok e hc hdb => get_fallback_error db cache t nr lok e hc hdb⟩

/-- C7, witness: with a database that fails every query, both templates are
still cached (the failed one with an empty row set), `get` on the failed
template yields no rows, and the fallback path propagates the error. -/
theorem claim_C7_witness :
    lookupCache (prefetch failDb [dupTemplateA, dupTemplateB] [] []).1
      (strTrim dupTemplateA) = some [] ∧
    (lookupCache (prefetch failDb [dupTemplateA, dupTemplateB] [] []).1
      (strTrim dupTemplateB)).isSome = true ∧
    QueryCache.get failDb [(strTrim dupTemplateA, [])] dupTemplateA
      (some "A") none = .ok [] ∧
    QueryCache.get failDb [] fallbackTemplate (some "A") none =
      .error (.dbError "boom") :=
  ⟨claim_C7_prefetch_error_isolation.1 failDb [dupTemplateA, dupTemplateB]
     dupTemplateA "boom" (by decide) rfl,
   claim_C7_prefetch_error_isolation.2.1 failDb [dupTemplateA, dupTemplateB]
     dupTemplateB (by decide),
   claim_C7_prefetch_error_isolation.2.2.1 failDb [(strTrim dupTemplateA, [])]
     dupTemplateA (some "A") none (by decide),
   claim_C7_prefetch_error_isolation.2.2.2 failDb [] fallbackTemplate
     (some "A") none "boom" rfl rfl⟩

/-! ## C8 — templates that already project their filter columns -/

theorem make_base_query_added_zero (T : String)
    (h1 : has_nr_filter (trimChars T.data) = true →
      isSubstr nrU (existingColsOf (clean_where (trimChars T.data))) = true)
    (h2 : has_lok_filter (trimChars T.data) = true →
      isSubstr lokU (existingColsOf (clean_where (trimChars T.data))) = true) :
    (make_base_query T).addedCount = 0 := by
  have e1 : (if has_nr_filter (trimChars T.data) &&
      !isSubstr nrU (existingColsOf (clean_where (trimChars T.data)))
      then [nrU] else []) = ([] : List (List Char)) := by
    cases hn : has_nr_filter (trimChars T.data)
    · simp
    · simp [h1 hn]
  have e2 : (if has_lok_filter (trimChars T.data) &&
      !isSubstr lokU (existingColsOf (clean_where (trimChars T.data)))
      then [lokU] else []) = ([] : List (List Char)) := by
    cases hl : has_lok_filter (trimChars T.data)
    · simp
    · simp [h2 hl]
  simp [make_base_query, e1, e2]
  exact ⟨h1, h2⟩

/-- C8 (amended): for a template with an entity filter whose entity column is
already projected in its select list, **and** whose location filter (if any)
likewise has its column already projected, the rewrite records
`prepended_count = 0`, and `get` on that prefetched template returns rows of
unmodified shape — every returned row is one of the cached rows, with no
leading column stripped. -/
theorem claim_C8_projected_entity_column (t : String)
    (hfil : has_nr_filter (trimChars t.data) = true)
    (h2 : isSubstr nrU (existingColsOf (clean_where (trimChars t.data))) = true)
    (h3 : has_lok_filter (trimChars t.data) = true →
      isSubstr lokU (existingColsOf (clean_where (trimChars t.data))) = true) :
    (make_base_query t).addedCount = 0 ∧
    (∀ (db : Db) (cache : Cache) (rows : List Row) (nr lok : Option String)
        (res : List Row),
      lookupCache cache (strTrim t) = some rows →
      QueryCache.get db cache t nr lok = .ok res →
      res.Sublist rows) := by
  have hadd : (make_base_query t).addedCount = 0 :=
    make_base_query_added_zero t (fun _ => h2) h3
  refine ⟨hadd, fun db cache rows nr lok res hlook hget => ?_⟩
  exact get_cached_sublist db cache t rows nr lok res hlook
    (by rw [make_base_query_strTrim]; exact hadd) hget

/-- C8, witness: concrete application of `claim_C8_projected_entity_column`
to `SELECT nr_umowy, a FROM t WHERE nr_umowy = '{nr}'`. -/
theorem claim_C8_witness :
    (make_base_query projNrTemplate).addedCount = 0 ∧
    ([["A", "x"]] : List Row).Sublist [["A", "x"], ["B", "y"]] :=
  have h := claim_C8_projected_entity_column projNrTemplate (by decide) (by decide)
    (fun hl => absurd hl (by decide))
  ⟨h.1,
   h.2 emptyOkDb [(strTrim projNrTemplate, [["A", "x"], ["B", "y"]])]
     [["A", "x"], ["B", "y"]] (some "A") none [["A", "x"]]
     (by decide) (by decide)⟩

/-- C8, counterexample: a template that has an entity filter and already
projects the entity column, but also carries an unprojected location filter:
the rewrite prepends the location column, so `prepended_count = 1 ≠ 0` —
the claim as stated is false for this template. -/
theorem claim_C8_counterexample :
    has_nr_filter (trimChars projButLokTemplate.data) = true ∧
    isSubstr nrU (existingColsOf (clean_where
      (trimChars projButLokTemplate.data))) = true ∧
    (make_base_query projButLokTemplate).addedCount = 1 :=
  ⟨by decide, by decide, by decide⟩

end PdfReport
